import Mathlib

/-!
Shallow embedding of the rustdoro Pomodoro timer (src/timer.rs, src/config.rs).

Modelling conventions:
* `Duration` (Rust `std::time::Duration`) is a count of nanoseconds (`Nat`);
  `Duration.from_secs s = s * 1000000000` as in the Rust constructor.
* `Instant` (Rust `std::time::Instant`) is an absolute timestamp in
  nanoseconds. `Instant.duration_since` saturates to zero when the second
  instant is later, exactly as Rust's `Instant::duration_since` does, so it
  is truncated `Nat` subtraction.
* The Rust methods mutate `&mut self`; here each returns the new `Timer`
  (paired with the `bool` result where the Rust method returns one).
* `Timer.tick` reads `Instant::now()` internally in Rust; the embedding
  passes that instant as the explicit argument `now`. Likewise `start`.
* Rust counters `u32`/`u8` are modelled as `Nat`: none of the verified
  properties depends on wrap-around, which would need 2^32 completed
  sessions or 256 consecutive short breaks to occur.
* `f64` values (only `get_progress`) are modelled as exact rationals `ℚ`.
-/

namespace Rustdoro

/-- Rust `Duration`: nanoseconds. -/
abbrev Duration := Nat

/-- Rust `Duration::from_secs`. -/
def Duration.from_secs (s : Nat) : Duration := s * 1000000000

/-- Rust `Duration::as_secs_f64`, modelled as an exact rational. -/
def Duration.as_secs_f64 (d : Duration) : ℚ := (d : ℚ) / 1000000000

/-- Rust `Instant`: an absolute timestamp in nanoseconds. -/
abbrev Instant := Nat

/-- Rust `Instant::duration_since`: saturates to zero when `earlier` is in
fact later (truncated subtraction). -/
def Instant.duration_since (now earlier : Instant) : Duration := now - earlier

/-! ## config.rs -/

/-- Command line arguments (config.rs `CliArgs`). The file-path and
`generate_config` fields drive I/O only and are not part of the pure
merge logic modelled here. -/
structure CliArgs where
  work_duration : Nat
  short_break : Nat
  long_break : Nat
  no_sound : Bool
  no_clock : Bool
  focus : Bool
  long_break_after : Nat
  volume : Option ℚ
  audio_file : Option String
  deriving Repr, DecidableEq

/-- config.rs `GeneralConfig`. -/
structure GeneralConfig where
  no_clock : Bool
  no_sound : Bool
  emoji : Bool
  deriving Repr, DecidableEq

/-- config.rs `TimeConfig`. -/
structure TimeConfig where
  tomatoes_per_set : Nat
  work_minutes : Nat
  small_break_minutes : Nat
  long_break_minutes : Nat
  alarm_seconds : Nat
  deriving Repr, DecidableEq

/-- config.rs `AudioConfig` (`volume: f32` as `ℚ`). -/
structure AudioConfig where
  audio_file : Option String
  volume : ℚ
  loop_audio : Bool
  deriving Repr, DecidableEq

/-- config.rs `Config`. -/
structure Config where
  general : GeneralConfig
  time : TimeConfig
  audio : AudioConfig
  deriving Repr, DecidableEq

/-- config.rs `impl Default for Config`. -/
def Config.default : Config :=
  { general := { no_clock := false, no_sound := false, emoji := true }
    time := { tomatoes_per_set := 4, work_minutes := 25, small_break_minutes := 5,
              long_break_minutes := 10, alarm_seconds := 5 }
    audio := { audio_file := none, volume := 7/10, loop_audio := true } }

/-- config.rs getter `work_duration_minutes`. -/
def Config.work_duration_minutes (c : Config) : Nat := c.time.work_minutes

/-- config.rs getter `short_break_duration_minutes`. -/
def Config.short_break_duration_minutes (c : Config) : Nat := c.time.small_break_minutes

/-- config.rs getter `long_break_duration_minutes`. -/
def Config.long_break_duration_minutes (c : Config) : Nat := c.time.long_break_minutes

/-- config.rs getter `long_break_after_pomodoros`. -/
def Config.long_break_after_pomodoros (c : Config) : Nat := c.time.tomatoes_per_set

/-- config.rs `Config::load_from_cli_args_with_config`. The file-resolution
step (specified path, default path, parse errors) is I/O; its outcome is
passed in as `fileConfig`: `some c` when a config file was found and parsed
to `c`, `none` when the function fell back to `Config::default()`. The
subsequent CLI-override merge is modelled verbatim: each timing field is
overridden only when the CLI value differs from the clap default
(25 / 5 / 10 / 4), flags only when set, volume clamped to `[0, 1]`, and
focus mode forcing `no_sound` and `no_clock`. -/
def Config.load_from_cli_args_with_config (args : CliArgs) (fileConfig : Option Config) : Config :=
  let config := match fileConfig with
    | some c => c
    | none => Config.default
  let config := if args.work_duration ≠ 25 then
      { config with time := { config.time with work_minutes := args.work_duration } }
    else config
  let config := if args.short_break ≠ 5 then
      { config with time := { config.time with small_break_minutes := args.short_break } }
    else config
  let config := if args.long_break ≠ 10 then
      { config with time := { config.time with long_break_minutes := args.long_break } }
    else config
  let config := if args.long_break_after ≠ 4 then
      { config with time := { config.time with tomatoes_per_set := args.long_break_after } }
    else config
  let config := if args.no_sound then
      { config with general := { config.general with no_sound := true } }
    else config
  let config := if args.no_clock then
      { config with general := { config.general with no_clock := true } }
    else config
  let config := match args.volume with
    | some v => { config with audio := { config.audio with volume := min 1 (max 0 v) } }
    | none => config
  let config := match args.audio_file with
    | some f => { config with audio := { config.audio with audio_file := some f } }
    | none => config
  let config := if args.focus then
      { config with general := { config.general with no_sound := true, no_clock := true } }
    else config
  config

/-! ## timer.rs -/

/-- timer.rs `SessionType`. -/
inductive SessionType where
  | Work
  | ShortBreak
  | LongBreak
  deriving Repr, DecidableEq

/-- timer.rs `TimerState`. -/
inductive TimerState where
  | Running
  | Paused
  | Stopped
  deriving Repr, DecidableEq

/-- timer.rs `Timer`. -/
structure Timer where
  current_session : SessionType
  remaining_time : Duration
  state : TimerState
  work_duration : Duration
  short_break_duration : Duration
  long_break_duration : Duration
  pomodoros_completed : Nat
  last_update_time : Option Instant
  break_count : Nat
  long_break_after_pomodoros : Nat
  deriving Repr, DecidableEq

/-- timer.rs `Timer::new`. -/
def Timer.new (config : Config) : Timer :=
  let work_duration := Duration.from_secs (config.work_duration_minutes * 60)
  { current_session := SessionType.Work
    remaining_time := work_duration
    state := TimerState.Stopped
    work_duration := work_duration
    short_break_duration := Duration.from_secs (config.short_break_duration_minutes * 60)
    long_break_duration := Duration.from_secs (config.long_break_duration_minutes * 60)
    pomodoros_completed := 0
    last_update_time := none
    break_count := 0
    long_break_after_pomodoros := config.long_break_after_pomodoros }

/-- timer.rs `Timer::start` (`Instant::now()` passed explicitly as `now`). -/
def Timer.start (t : Timer) (now : Instant) : Timer :=
  { t with state := TimerState.Running, last_update_time := some now }

/-- timer.rs `Timer::pause`. -/
def Timer.pause (t : Timer) : Timer :=
  if t.state = TimerState.Running then
    { t with state := TimerState.Paused, last_update_time := none }
  else t

/-- timer.rs `Timer::resume`. -/
def Timer.resume (t : Timer) (now : Instant) : Timer :=
  if t.state = TimerState.Paused then t.start now else t

/-- timer.rs `Timer::toggle_pause`. -/
def Timer.toggle_pause (t : Timer) (now : Instant) : Timer :=
  match t.state with
  | TimerState.Running => t.pause
  | TimerState.Paused => t.resume now
  | TimerState.Stopped => t.start now

/-- timer.rs `Timer::complete_session`. Returns the `bool` result paired
with the updated timer. -/
def Timer.complete_session (t : Timer) : Bool × Timer :=
  let session_completed := true
  let t1 :=
    match t.current_session with
    | SessionType.Work =>
      let pomodoros := t.pomodoros_completed + 1
      if pomodoros % t.long_break_after_pomodoros = 0 then
        { t with pomodoros_completed := pomodoros,
                 current_session := SessionType.LongBreak,
                 remaining_time := t.long_break_duration,
                 break_count := 0 }
      else
        { t with pomodoros_completed := pomodoros,
                 current_session := SessionType.ShortBreak,
                 remaining_time := t.short_break_duration,
                 break_count := t.break_count + 1 }
    | SessionType.ShortBreak | SessionType.LongBreak =>
      { t with current_session := SessionType.Work,
               remaining_time := t.work_duration }
  (session_completed, { t1 with state := TimerState.Stopped, last_update_time := none })

/-- timer.rs `Timer::skip_session`. -/
def Timer.skip_session (t : Timer) : Bool × Timer :=
  Timer.complete_session { t with remaining_time := 0 }

/-- timer.rs `Timer::tick` (`Instant::now()` passed explicitly as `now`). -/
def Timer.tick (t : Timer) (now : Instant) : Bool × Timer :=
  if t.state ≠ TimerState.Running then
    (false, t)
  else
    match t.last_update_time with
    | some last_update =>
      let elapsed := Instant.duration_since now last_update
      if t.remaining_time ≤ elapsed then
        Timer.complete_session { t with remaining_time := 0, last_update_time := some now }
      else
        (false, { t with remaining_time := t.remaining_time - elapsed,
                         last_update_time := some now })
    | none => (false, t)

/-- timer.rs `Timer::get_total_duration`. -/
def Timer.get_total_duration (t : Timer) : Duration :=
  match t.current_session with
  | SessionType.Work => t.work_duration
  | SessionType.ShortBreak => t.short_break_duration
  | SessionType.LongBreak => t.long_break_duration

/-- timer.rs `Timer::get_progress` (`f64` arithmetic as exact `ℚ`; the Rust
`total_duration - self.remaining_time` on `Duration` is the same truncated
subtraction). -/
def Timer.get_progress (t : Timer) : ℚ :=
  let total_duration :=
    match t.current_session with
    | SessionType.Work => t.work_duration
    | SessionType.ShortBreak => t.short_break_duration
    | SessionType.LongBreak => t.long_break_duration
  let elapsed := total_duration - t.remaining_time
  Duration.as_secs_f64 elapsed / Duration.as_secs_f64 total_duration

/-- timer.rs `Timer::reset`. -/
def Timer.reset (t : Timer) : Timer :=
  { t with current_session := SessionType.Work,
           remaining_time := t.work_duration,
           state := TimerState.Stopped,
           pomodoros_completed := 0,
           last_update_time := none,
           break_count := 0 }

/-! ## Reachability

The commands and ticks a driver can apply to a timer, and the states
reachable from `Timer.new config` by any sequence of them. Time arguments
are arbitrary instants. -/

/-- One externally applied operation. -/
inductive Op where
  | start (now : Instant)
  | pause
  | resume (now : Instant)
  | toggle (now : Instant)
  | skip
  | reset
  | tick (now : Instant)
  deriving Repr, DecidableEq

/-- Apply one operation to the timer state (discarding the completion
booleans of `skip_session` and `tick`). -/
def applyOp (t : Timer) : Op → Timer
  | Op.start now => t.start now
  | Op.pause => t.pause
  | Op.resume now => t.resume now
  | Op.toggle now => t.toggle_pause now
  | Op.skip => (t.skip_session).2
  | Op.reset => t.reset
  | Op.tick now => (t.tick now).2

/-- States reachable from a freshly constructed timer by any sequence of
operations. -/
inductive Reachable (config : Config) : Timer → Prop where
  | init : Reachable config (Timer.new config)
  | step {t : Timer} (h : Reachable config t) (op : Op) : Reachable config (applyOp t op)

/-! ## Concrete states used in scenario checks -/

/-- The default configuration, as a concrete sample. -/
def sampleConfig : Config := Config.default

/-- A timer freshly constructed from the default configuration. -/
def sampleTimer : Timer := Timer.new sampleConfig

/-- A stopped timer whose Work budget is 5 seconds, the configuration of
the spec's tick-convergence scenario. -/
def fiveSecTimer : Timer :=
  { current_session := SessionType.Work
    remaining_time := Duration.from_secs 5
    state := TimerState.Stopped
    work_duration := Duration.from_secs 5
    short_break_duration := Duration.from_secs 60
    long_break_duration := Duration.from_secs 120
    pomodoros_completed := 0
    last_update_time := none
    break_count := 0
    long_break_after_pomodoros := 4 }

/-- The CLI arguments `--long-break-after 0` (all other arguments left at
their clap defaults). -/
def zeroCadenceArgs : CliArgs :=
  { work_duration := 25, short_break := 5, long_break := 10, no_sound := false,
    no_clock := false, focus := false, long_break_after := 0, volume := none,
    audio_file := none }

/-! ## Helper lemmas on the completion transition -/

/-- The completion transition always reports completion. -/
theorem complete_fst (t : Timer) : (t.complete_session).1 = true := rfl

/-- The completion transition always leaves the timer Stopped. -/
theorem complete_state (t : Timer) : (t.complete_session).2.state = TimerState.Stopped := rfl

/-- The completion transition always clears the anchor. -/
theorem complete_anchor (t : Timer) : (t.complete_session).2.last_update_time = none := rfl

/-- The completion transition loads the new phase's full budget. -/
theorem complete_remaining (t : Timer) :
    (t.complete_session).2.remaining_time = (t.complete_session).2.get_total_duration := by
  cases h : t.current_session <;>
    simp [Timer.complete_session, Timer.get_total_duration, h] <;>
    split <;> simp

/-- The completion transition leaves the configuration fields unchanged. -/
theorem complete_config (t : Timer) :
    (t.complete_session).2.work_duration = t.work_duration
    ∧ (t.complete_session).2.short_break_duration = t.short_break_duration
    ∧ (t.complete_session).2.long_break_duration = t.long_break_duration
    ∧ (t.complete_session).2.long_break_after_pomodoros = t.long_break_after_pomodoros := by
  cases h : t.current_session <;>
    simp [Timer.complete_session, h] <;> split <;> simp

/-- The completion transition does not read `remaining_time`,
`last_update_time` or `state`: it overwrites all three. -/
theorem complete_congr (t : Timer) (r : Duration) (a : Option Instant) (s : TimerState) :
    Timer.complete_session
      { t with remaining_time := r, last_update_time := a, state := s } =
    t.complete_session := by
  cases h : t.current_session <;>
    simp [Timer.complete_session, h] <;> split <;> simp

/-! ## Helper lemmas on tick -/

/-- `tick` is a no-op returning false unless the timer is Running. -/
theorem tick_not_running (t : Timer) (now : Instant)
    (h : t.state ≠ TimerState.Running) : t.tick now = (false, t) := by
  simp [Timer.tick, h]

/-- `tick` is a no-op returning false when no anchor is set. -/
theorem tick_no_anchor (t : Timer) (now : Instant)
    (h : t.last_update_time = none) : t.tick now = (false, t) := by
  unfold Timer.tick
  rw [h]
  split <;> rfl

/-- When Running with the elapsed time at least `remaining_time`, `tick`
zeroes the remaining time, re-arms the anchor and completes the session. -/
theorem tick_complete_eq (t : Timer) (now last : Instant)
    (hrun : t.state = TimerState.Running)
    (ha : t.last_update_time = some last)
    (hel : t.remaining_time ≤ Instant.duration_since now last) :
    t.tick now =
      Timer.complete_session
        { t with remaining_time := 0, last_update_time := some now } := by
  simp [Timer.tick, hrun, ha, hel]

/-- When Running with the elapsed time below `remaining_time`, `tick`
subtracts the elapsed time, re-arms the anchor and returns false. -/
theorem tick_partial_eq (t : Timer) (now last : Instant)
    (hrun : t.state = TimerState.Running)
    (ha : t.last_update_time = some last)
    (hel : Instant.duration_since now last < t.remaining_time) :
    t.tick now =
      (false, { t with remaining_time := t.remaining_time - Instant.duration_since now last,
                       last_update_time := some now }) := by
  simp [Timer.tick, hrun, ha, not_le.mpr hel]

/-! ## Reachability invariants -/

/-- Each operation preserves `remaining_time ≤ phase budget`. -/
theorem remaining_le_budget_step (t : Timer)
    (h : t.remaining_time ≤ t.get_total_duration) (op : Op) :
    (applyOp t op).remaining_time ≤ (applyOp t op).get_total_duration := by
  cases op with
  | start now => exact h
  | pause =>
    simp only [applyOp, Timer.pause]
    split
    · exact h
    · exact h
  | resume now =>
    simp only [applyOp, Timer.resume, Timer.start]
    split
    · exact h
    · exact h
  | toggle now =>
    simp only [applyOp, Timer.toggle_pause]
    cases t.state with
    | Running =>
      simp only [Timer.pause]
      split
      · exact h
      · exact h
    | Paused =>
      simp only [Timer.resume, Timer.start]
      split
      · exact h
      · exact h
    | Stopped => exact h
  | skip => exact le_of_eq (complete_remaining _)
  | reset => exact le_refl _
  | tick now =>
    simp only [applyOp, Timer.tick]
    split
    · exact h
    · split
      · split
        · exact le_of_eq (complete_remaining _)
        · exact le_trans (Nat.sub_le _ _) h
      · exact h

/-- Each operation preserves the anchor/run-state equivalence. -/
theorem anchor_iff_running_step (t : Timer)
    (h : t.last_update_time.isSome = true ↔ t.state = TimerState.Running) (op : Op) :
    (applyOp t op).last_update_time.isSome = true
      ↔ (applyOp t op).state = TimerState.Running := by
  cases op with
  | start now => simp [applyOp, Timer.start]
  | pause =>
    simp only [applyOp, Timer.pause]
    split
    · simp
    · exact h
  | resume now =>
    simp only [applyOp, Timer.resume, Timer.start]
    split
    · simp
    · exact h
  | toggle now =>
    simp only [applyOp, Timer.toggle_pause]
    cases ht : t.state with
    | Running =>
      simp only [Timer.pause, ht]
      simp
    | Paused =>
      simp only [Timer.resume, Timer.start, ht]
      simp
    | Stopped => simp [Timer.start]
  | skip =>
    simp [applyOp, Timer.skip_session, complete_anchor, complete_state]
  | reset => simp [applyOp, Timer.reset]
  | tick now =>
    show (t.tick now).2.last_update_time.isSome = true
      ↔ (t.tick now).2.state = TimerState.Running
    by_cases hrun : t.state = TimerState.Running
    · cases ha : t.last_update_time with
      | none => rw [tick_no_anchor t now ha]; exact h
      | some last =>
        by_cases hel : t.remaining_time ≤ Instant.duration_since now last
        · rw [tick_complete_eq t now last hrun ha hel]
          simp [complete_anchor, complete_state]
        · rw [tick_partial_eq t now last hrun ha (not_le.mp hel)]
          simp [hrun]
    · rw [tick_not_running t now hrun]; exact h

/-- No operation modifies the configuration fields. -/
theorem config_fields_step (t : Timer) (op : Op) :
    (applyOp t op).work_duration = t.work_duration
    ∧ (applyOp t op).short_break_duration = t.short_break_duration
    ∧ (applyOp t op).long_break_duration = t.long_break_duration
    ∧ (applyOp t op).long_break_after_pomodoros = t.long_break_after_pomodoros := by
  cases op with
  | start now => exact ⟨rfl, rfl, rfl, rfl⟩
  | pause =>
    simp only [applyOp, Timer.pause]
    split
    · exact ⟨rfl, rfl, rfl, rfl⟩
    · exact ⟨rfl, rfl, rfl, rfl⟩
  | resume now =>
    simp only [applyOp, Timer.resume, Timer.start]
    split
    · exact ⟨rfl, rfl, rfl, rfl⟩
    · exact ⟨rfl, rfl, rfl, rfl⟩
  | toggle now =>
    simp only [applyOp, Timer.toggle_pause]
    cases t.state with
    | Running =>
      simp only [Timer.pause]
      split
      · exact ⟨rfl, rfl, rfl, rfl⟩
      · exact ⟨rfl, rfl, rfl, rfl⟩
    | Paused =>
      simp only [Timer.resume, Timer.start]
      split
      · exact ⟨rfl, rfl, rfl, rfl⟩
      · exact ⟨rfl, rfl, rfl, rfl⟩
    | Stopped => exact ⟨rfl, rfl, rfl, rfl⟩
  | skip => exact complete_config _
  | reset => exact ⟨rfl, rfl, rfl, rfl⟩
  | tick now =>
    simp only [applyOp, Timer.tick]
    split
    · exact ⟨rfl, rfl, rfl, rfl⟩
    · split
      · split
        · exact complete_config _
        · exact ⟨rfl, rfl, rfl, rfl⟩
      · exact ⟨rfl, rfl, rfl, rfl⟩

/-- In every reachable state, `remaining_time` is at most the budget of the
current phase. -/
theorem reachable_remaining_le_budget {config : Config} {t : Timer}
    (h : Reachable config t) : t.remaining_time ≤ t.get_total_duration := by
  induction h with
  | init => exact le_refl _
  | step h op ih => exact remaining_le_budget_step _ ih op

/-- In every reachable state, the anchor is set exactly while Running. -/
theorem reachable_anchor_iff_running {config : Config} {t : Timer}
    (h : Reachable config t) :
    t.last_update_time.isSome = true ↔ t.state = TimerState.Running := by
  induction h with
  | init => simp [Timer.new]
  | step h op ih => exact anchor_iff_running_step _ ih op

/-- In every reachable state, the configuration fields are those of the
constructed timer. -/
theorem reachable_config_fields {config : Config} {t : Timer}
    (h : Reachable config t) :
    t.work_duration = (Timer.new config).work_duration
    ∧ t.short_break_duration = (Timer.new config).short_break_duration
    ∧ t.long_break_duration = (Timer.new config).long_break_duration
    ∧ t.long_break_after_pomodoros = (Timer.new config).long_break_after_pomodoros := by
  induction h with
  | init => exact ⟨rfl, rfl, rfl, rfl⟩
  | step h op ih =>
    obtain ⟨i1, i2, i3, i4⟩ := ih
    obtain ⟨s1, s2, s3, s4⟩ := config_fields_step _ op
    exact ⟨s1.trans i1, s2.trans i2, s3.trans i3, s4.trans i4⟩

/-! ## Helper lemmas on progress -/

/-- `get_progress` computed through `get_total_duration`. -/
theorem progress_eq (t : Timer) :
    t.get_progress =
      Duration.as_secs_f64 (t.get_total_duration - t.remaining_time)
        / Duration.as_secs_f64 t.get_total_duration := rfl

/-- Dividing two `as_secs_f64` values cancels the common nanosecond scale. -/
theorem as_secs_f64_div (x y : Nat) (hy : (0 : ℚ) < (y : ℚ)) :
    Duration.as_secs_f64 x / Duration.as_secs_f64 y = (x : ℚ) / (y : ℚ) := by
  have hy' : (y : ℚ) ≠ 0 := ne_of_gt hy
  unfold Duration.as_secs_f64
  rw [div_div_div_cancel_right₀]
  norm_num

/-- The phase budget of a reachable state is positive when all three
configured budgets are. -/
theorem total_duration_pos (t : Timer) (hw : 0 < t.work_duration)
    (hs : 0 < t.short_break_duration) (hl : 0 < t.long_break_duration) :
    0 < t.get_total_duration := by
  unfold Timer.get_total_duration
  cases t.current_session
  · exact hw
  · exact hs
  · exact hl

/-! ## Claim theorems -/

/-- C1: `tick` is a pure no-op returning false unless Running; otherwise,
with `elapsed = now - last_tick_anchor`, when `elapsed ≥ remaining` it
zeroes the remaining time, re-arms the anchor to `now`, performs the
completion transition and returns true, and when `elapsed < remaining` it
subtracts `elapsed`, sets the anchor to `now` and returns false. With a
Work budget of 5 s, `start` followed by ticks at 3 s and 6 s leaves 2 s
after the first tick and completes on the second with the remaining time
clamped to exactly 0 (never negative) at the moment of completion. -/
theorem tick_behaviour :
    (∀ (t : Timer) (now : Instant), t.state ≠ TimerState.Running →
      t.tick now = (false, t))
    ∧ (∀ (t : Timer) (now last : Instant), t.state = TimerState.Running →
        t.last_update_time = some last →
        (t.remaining_time ≤ Instant.duration_since now last →
          t.tick now =
            Timer.complete_session
              { t with remaining_time := 0, last_update_time := some now }
          ∧ (t.tick now).1 = true)
        ∧ (Instant.duration_since now last < t.remaining_time →
          t.tick now =
            (false,
              { t with
                  remaining_time := t.remaining_time - Instant.duration_since now last,
                  last_update_time := some now })))
    ∧ (((fiveSecTimer.start 0).tick (Duration.from_secs 3)).1 = false
       ∧ ((fiveSecTimer.start 0).tick (Duration.from_secs 3)).2.remaining_time
           = Duration.from_secs 2
       ∧ (((fiveSecTimer.start 0).tick (Duration.from_secs 3)).2.tick
             (Duration.from_secs 6)).1 = true
       ∧ ((fiveSecTimer.start 0).tick (Duration.from_secs 3)).2.tick
             (Duration.from_secs 6)
           = Timer.complete_session
               { ((fiveSecTimer.start 0).tick (Duration.from_secs 3)).2 with
                   remaining_time := 0,
                   last_update_time := some (Duration.from_secs 6) }) := by
  refine ⟨tick_not_running, ?_, ?_⟩
  · intro t now last hrun ha
    constructor
    · intro hel
      refine ⟨tick_complete_eq t now last hrun ha hel, ?_⟩
      rw [tick_complete_eq t now last hrun ha hel]
      exact complete_fst _
    · intro hel
      exact tick_partial_eq t now last hrun ha hel
  · exact ⟨by decide, by decide, by decide, by decide⟩

/-- C1 witness: a stopped timer ticks to false without change. -/
theorem tick_behaviour_witness :
    sampleTimer.tick 0 = (false, sampleTimer) :=
  tick_behaviour.1 sampleTimer 0 (by decide)

/-- C2: the completion transition stops the timer, clears the anchor and
loads the new phase's full budget; completing Work increments the
completed-work counter and moves to LongBreak with the streak reset
exactly when the incremented counter is divisible by the cadence,
otherwise to ShortBreak with the streak incremented; completing either
break moves back to Work. -/
theorem complete_session_behaviour (t : Timer)
    (hc : 0 < t.long_break_after_pomodoros) :
    (t.complete_session).2.state = TimerState.Stopped
    ∧ (t.complete_session).2.last_update_time = none
    ∧ (t.complete_session).2.remaining_time = (t.complete_session).2.get_total_duration
    ∧ (t.current_session = SessionType.Work →
        (t.complete_session).2.pomodoros_completed = t.pomodoros_completed + 1
        ∧ (t.long_break_after_pomodoros ∣ t.pomodoros_completed + 1 →
            (t.complete_session).2.current_session = SessionType.LongBreak
            ∧ (t.complete_session).2.break_count = 0)
        ∧ (¬t.long_break_after_pomodoros ∣ t.pomodoros_completed + 1 →
            (t.complete_session).2.current_session = SessionType.ShortBreak
            ∧ (t.complete_session).2.break_count = t.break_count + 1))
    ∧ (t.current_session ≠ SessionType.Work →
        (t.complete_session).2.current_session = SessionType.Work) := by
  refine ⟨complete_state t, complete_anchor t, complete_remaining t, ?_, ?_⟩
  · intro hw
    by_cases hm : (t.pomodoros_completed + 1) % t.long_break_after_pomodoros = 0
    · refine ⟨?_, ?_, ?_⟩
      · simp [Timer.complete_session, hw, hm]
      · intro _
        constructor
        · simp [Timer.complete_session, hw, hm]
        · simp [Timer.complete_session, hw, hm]
      · intro hd
        exact absurd (Nat.dvd_iff_mod_eq_zero.mpr hm) hd
    · refine ⟨?_, ?_, ?_⟩
      · simp [Timer.complete_session, hw, hm]
      · intro hd
        exact absurd (Nat.dvd_iff_mod_eq_zero.mp hd) hm
      · intro _
        constructor
        · simp [Timer.complete_session, hw, hm]
        · simp [Timer.complete_session, hw, hm]
  · intro hnw
    cases hcs : t.current_session with
    | Work => exact absurd hcs hnw
    | ShortBreak => simp [Timer.complete_session, hcs]
    | LongBreak => simp [Timer.complete_session, hcs]

/-- C2 witness: completing the first Work session of a cadence-4 timer. -/
theorem complete_session_behaviour_witness :
    (fiveSecTimer.complete_session).2.state = TimerState.Stopped :=
  (complete_session_behaviour fiveSecTimer (by decide)).1

/-- C3: in every reachable state the remaining time is between 0 and the
budget of the current phase. -/
theorem remaining_within_budget (config : Config) (t : Timer)
    (h : Reachable config t) :
    0 ≤ t.remaining_time ∧ t.remaining_time ≤ t.get_total_duration :=
  ⟨Nat.zero_le _, reachable_remaining_le_budget h⟩

/-- C3 witness: the invariant at the freshly constructed default timer. -/
theorem remaining_within_budget_witness :
    0 ≤ sampleTimer.remaining_time
    ∧ sampleTimer.remaining_time ≤ sampleTimer.get_total_duration :=
  remaining_within_budget sampleConfig sampleTimer Reachable.init

/-- C4: in every reachable state the anchor is `some` exactly while
Running, and every operation preserves this equivalence. -/
theorem anchor_iff_running (config : Config) (t : Timer)
    (h : Reachable config t) :
    (t.last_update_time.isSome = true ↔ t.state = TimerState.Running)
    ∧ ∀ op : Op, ((applyOp t op).last_update_time.isSome = true
        ↔ (applyOp t op).state = TimerState.Running) :=
  ⟨reachable_anchor_iff_running h,
   fun op => reachable_anchor_iff_running (Reachable.step h op)⟩

/-- C4 witness: the equivalence at the freshly constructed default timer. -/
theorem anchor_iff_running_witness :
    sampleTimer.last_update_time.isSome = true
      ↔ sampleTimer.state = TimerState.Running :=
  (anchor_iff_running sampleConfig sampleTimer Reachable.init).1

/-- C5: contrary to the claim, the configuration loader performs no
validation at all: with `--long-break-after 0` (and no config file) it
returns a configuration whose cadence is 0, and `Timer::new` constructs a
timer carrying that zero cadence, so the modulo-by-zero in
`complete_session` is reachable at the first Work completion. -/
theorem loader_accepts_zero_cadence :
    (Config.load_from_cli_args_with_config zeroCadenceArgs none).time.tomatoes_per_set = 0
    ∧ (Timer.new
        (Config.load_from_cli_args_with_config zeroCadenceArgs none)).long_break_after_pomodoros
        = 0 :=
  ⟨rfl, rfl⟩

/-- C6: on a Running timer whose elapsed time has reached the remaining
time, `tick` produces exactly the same completion flag and the same
resulting state as `skip_session` — in particular on a freshly started
Work phase. -/
theorem skip_eq_natural_expiry (t : Timer) (now last : Instant)
    (hrun : t.state = TimerState.Running)
    (ha : t.last_update_time = some last)
    (hel : t.remaining_time ≤ Instant.duration_since now last) :
    t.tick now = t.skip_session := by
  rw [tick_complete_eq t now last hrun ha hel]
  unfold Timer.skip_session
  have h1 := complete_congr t 0 (some now) t.state
  have h2 := complete_congr t 0 t.last_update_time t.state
  exact h1.trans h2.symm

/-- C6 witness: a freshly started 5 s Work phase, expired by a 10 s tick. -/
theorem skip_eq_natural_expiry_witness :
    (fiveSecTimer.start 0).tick (Duration.from_secs 10)
      = (fiveSecTimer.start 0).skip_session :=
  skip_eq_natural_expiry (fiveSecTimer.start 0) (Duration.from_secs 10) 0
    rfl rfl (by decide)

/-- C7: from any reachable state, `reset` restores exactly the constructed
state (phase Work, full Work budget remaining, Stopped, zero counters,
anchor cleared) with the configuration fields untouched. -/
theorem reset_restores_initial (config : Config) (t : Timer)
    (h : Reachable config t) :
    t.reset = Timer.new config := by
  obtain ⟨h1, h2, h3, h4⟩ := reachable_config_fields h
  cases t with
  | mk cs rt st wd sbd lbd pc lut bc lbap =>
    simp_all [Timer.reset, Timer.new, Timer.mk.injEq]

/-- C7 witness: reset after a skip on the default timer. -/
theorem reset_restores_initial_witness :
    (applyOp (Timer.new sampleConfig) Op.skip).reset = Timer.new sampleConfig :=
  reset_restores_initial sampleConfig _ (Reachable.step Reachable.init Op.skip)

/-- C8: with positive phase budgets, in every reachable state the progress
fraction equals `(budget - remaining) / budget` for the current phase's
budget, lies in `[0, 1]`, and is exactly 0 immediately after a completion
transition and immediately after a reset. -/
theorem progress_spec (config : Config) (t : Timer) (h : Reachable config t)
    (hw : 0 < t.work_duration) (hs : 0 < t.short_break_duration)
    (hl : 0 < t.long_break_duration) :
    t.get_progress
        = ((t.get_total_duration : ℚ) - (t.remaining_time : ℚ)) / (t.get_total_duration : ℚ)
    ∧ 0 ≤ t.get_progress
    ∧ t.get_progress ≤ 1
    ∧ (t.complete_session).2.get_progress = 0
    ∧ t.reset.get_progress = 0 := by
  have htot : 0 < t.get_total_duration := total_duration_pos t hw hs hl
  have htotQ : (0 : ℚ) < (t.get_total_duration : ℚ) := by exact_mod_cast htot
  have hle : t.remaining_time ≤ t.get_total_duration := reachable_remaining_le_budget h
  have hpe : t.get_progress
      = ((t.get_total_duration - t.remaining_time : Nat) : ℚ) / (t.get_total_duration : ℚ) := by
    rw [progress_eq, as_secs_f64_div _ _ htotQ]
  have hcast : ((t.get_total_duration - t.remaining_time : Nat) : ℚ)
      = (t.get_total_duration : ℚ) - (t.remaining_time : ℚ) := by
    exact Nat.cast_sub hle
  refine ⟨?_, ?_, ?_, ?_, ?_⟩
  · rw [hpe, hcast]
  · rw [hpe]
    exact div_nonneg (by positivity) (le_of_lt htotQ)
  · rw [hpe, div_le_one htotQ, hcast]
    have : (0 : ℚ) ≤ (t.remaining_time : ℚ) := by positivity
    linarith
  · rw [progress_eq, complete_remaining, Nat.sub_self]
    simp [Duration.as_secs_f64]
  · rw [progress_eq]
    have hr : t.reset.get_total_duration = t.reset.remaining_time := rfl
    rw [hr, Nat.sub_self]
    simp [Duration.as_secs_f64]

/-- C8 witness: progress bounds at the freshly constructed default timer. -/
theorem progress_spec_witness :
    0 ≤ sampleTimer.get_progress ∧ sampleTimer.get_progress ≤ 1 :=
  ⟨(progress_spec sampleConfig sampleTimer Reachable.init
      (by decide) (by decide) (by decide)).2.1,
   (progress_spec sampleConfig sampleTimer Reachable.init
      (by decide) (by decide) (by decide)).2.2.1⟩

/-- C9: a non-completing `tick` never increases the remaining time; `tick`
leaves the state untouched while Paused or Stopped; and a timestamp at or
before the anchor is clamped to zero elapsed time, leaving the remaining
time exactly unchanged rather than growing it. -/
theorem remaining_monotone :
    (∀ (t : Timer) (now : Instant), t.state = TimerState.Running →
      (t.tick now).1 = false → (t.tick now).2.remaining_time ≤ t.remaining_time)
    ∧ (∀ (t : Timer) (now : Instant), t.state ≠ TimerState.Running →
        (t.tick now).2 = t)
    ∧ (∀ (t : Timer) (now last : Instant), t.state = TimerState.Running →
        t.last_update_time = some last → now ≤ last → 0 < t.remaining_time →
        t.tick now = (false, { t with last_update_time := some now })) := by
  refine ⟨?_, ?_, ?_⟩
  · intro t now hrun hfalse
    cases ha : t.last_update_time with
    | none => rw [tick_no_anchor t now ha]
    | some last =>
      by_cases hel : t.remaining_time ≤ Instant.duration_since now last
      · rw [tick_complete_eq t now last hrun ha hel, complete_fst] at hfalse
        exact absurd hfalse (by decide)
      · rw [tick_partial_eq t now last hrun ha (not_le.mp hel)]
        exact Nat.sub_le _ _
  · intro t now hns
    rw [tick_not_running t now hns]
  · intro t now last hrun ha hnl hpos
    have hz : Instant.duration_since now last = 0 := Nat.sub_eq_zero_of_le hnl
    have hstep := tick_partial_eq t now last hrun ha (by rw [hz]; exact hpos)
    rw [hz, Nat.sub_zero] at hstep
    exact hstep

/-- C9 witness: tick freezes a stopped timer. -/
theorem remaining_monotone_witness :
    (sampleTimer.tick 5).2 = sampleTimer :=
  remaining_monotone.2.1 sampleTimer 5 (by decide)

/-- C10: `toggle_pause` never modifies the phase, the remaining time, the
completed-work counter, the short-break streak, or any configuration
field, whatever the starting run state. -/
theorem toggle_pause_frame (t : Timer) (now : Instant) :
    (t.toggle_pause now).current_session = t.current_session
    ∧ (t.toggle_pause now).remaining_time = t.remaining_time
    ∧ (t.toggle_pause now).pomodoros_completed = t.pomodoros_completed
    ∧ (t.toggle_pause now).break_count = t.break_count
    ∧ (t.toggle_pause now).work_duration = t.work_duration
    ∧ (t.toggle_pause now).short_break_duration = t.short_break_duration
    ∧ (t.toggle_pause now).long_break_duration = t.long_break_duration
    ∧ (t.toggle_pause now).long_break_after_pomodoros = t.long_break_after_pomodoros := by
  unfold Timer.toggle_pause
  cases ht : t.state with
  | Running => simp [Timer.pause, ht]
  | Paused => simp [Timer.resume, Timer.start, ht]
  | Stopped => simp [Timer.start]

end Rustdoro
